import Mathlib

/-!
Shallow embedding of `src/app.py` (a Shiny dashboard that submits a Slurm
job, polls `squeue`, classifies via `sacct`, reads log files and cleans up).

External effects (subprocess output, filesystem, clock) are modelled as
explicit inputs in a `Scenario`; `datetime.now()` is a tick counter.
Timestamps are `Option Nat` (Python `None` / a datetime).
-/

/-- Python whitespace characters recognised by `str.strip` / `str.split`
(ASCII subset, which is all that scheduler output contains). -/
def isSpaceChar (c : Char) : Bool :=
  c == ' ' || c == '\t' || c == '\n' || c == '\r' || c == '\x0b' || c == '\x0c'

/-- Drop trailing whitespace from a character list (structural recursion). -/
def dropTrailingSpaces : List Char → List Char
  | [] => []
  | c :: t =>
    match dropTrailingSpaces t with
    | [] => if isSpaceChar c then [] else [c]
    | r => c :: r

/-- Python `str.strip()` on a character list. -/
def pyStripL (l : List Char) : List Char :=
  dropTrailingSpaces (l.dropWhile isSpaceChar)

/-- Python `str.strip()`. -/
def pyStrip (s : String) : String :=
  String.mk (pyStripL s.data)

/-- Python `str.upper()` (ASCII; scheduler states are ASCII). -/
def pyUpper (s : String) : String :=
  String.mk (s.data.map Char.toUpper)

/-- Python `s.split(maxsplit=1)`: leading whitespace skipped, the head is the
run up to the first whitespace, the remainder (if any) starts after that
whitespace run. `none` when there is no second part. -/
def splitMax1 (l : List Char) : List Char × Option (List Char) :=
  let l1 := l.dropWhile isSpaceChar
  let hd := l1.takeWhile (fun c => !(isSpaceChar c))
  let rest := (l1.drop hd.length).dropWhile isSpaceChar
  (hd, if rest.isEmpty then none else some rest)

/-- The `job_state` value extracted from one `squeue` output (app.py lines 166-173):
the decoded output is stripped; if non-empty, `split(maxsplit=1)[0]`,
otherwise the empty string. -/
def stateOf (o : String) : String :=
  String.mk (splitMax1 (pyStrip o).data).1

/-- The node field extracted from one `squeue` output (app.py lines 174-176):
`parts[1].strip()` when `split(maxsplit=1)` has a second part, else absent
(in which case `last_known_hostname` is left untouched). -/
def nodeOf (o : String) : Option String :=
  match (splitMax1 (pyStrip o).data).2 with
  | some r => some (String.mk (pyStripL r))
  | none => none

/-- Everything before the first `|` of the output: Python
`final_state_raw.split('|')[0]` (app.py line 201). -/
def takeBeforePipe (l : List Char) : List Char :=
  l.takeWhile (fun c => !(c == '|'))

/-- The first line of the output (used only by the spec-side reading of
"first record", not by the code). -/
def firstLineOf (l : List Char) : List Char :=
  l.takeWhile (fun c => !(c == '\n'))

/-- QueryFinal classification as the CODE computes it (app.py lines 199-201):
`final_state_raw = sacct_stdout.decode().strip()`, then
`final_state_raw.split('|')[0].strip().upper()` if non-empty else "UNKNOWN".
Note the split is over the WHOLE (possibly multi-line) output. -/
def sacctExtract (raw : String) : String :=
  let r := pyStrip raw
  if r = "" then "UNKNOWN" else pyUpper (pyStrip (String.mk (takeBeforePipe r.data)))

/-- QueryFinal as the SPEC words it ("The first record's first field,
upper-cased and trimmed ... Absence of any record maps to UNKNOWN"):
records are the lines of the headerless output, fields are pipe-delimited,
so the result is the first line's first pipe-field. Stated for comparison
with `sacctExtract`. -/
def specQueryFinal (raw : String) : String :=
  let r := pyStrip raw
  if r = "" then "UNKNOWN"
  else pyUpper (pyStrip (String.mk (takeBeforePipe (firstLineOf r.data))))

/-- An apostrophe, written by code point so the character never appears
bare in the file. The Python placeholder texts quote file names with it. -/
def apos : String := (Char.ofNat 39).toString

/-- State of one of the two log files as seen by `read_slurm_logs`:
absent (`os.path.exists` false), present but raising on read, or readable
with the given content. -/
inductive FileState
  | absent
  | unreadable (msg : String)
  | readable (content : String)
deriving DecidableEq

/-- The path `shiny_sleep_job_{job_id}.out` (app.py line 15). -/
def outFileName (jid : String) : String := "shiny_sleep_job_" ++ jid ++ ".out"

/-- The path `shiny_sleep_job_{job_id}.err` (app.py line 16). -/
def errFileName (jid : String) : String := "shiny_sleep_job_" ++ jid ++ ".err"

/-- The `output_content` text computed by `read_slurm_logs` (app.py lines 21-28). -/
def outContent (jid : String) (f : FileState) : String :=
  match f with
  | .readable c => c
  | .absent => "(Output file " ++ apos ++ outFileName jid ++ apos ++ " not found.)"
  | .unreadable e =>
    "(Could not read output file " ++ apos ++ outFileName jid ++ apos ++ ": " ++ e ++ ")"

/-- The `error_content` text computed by `read_slurm_logs` (app.py lines 30-37). -/
def errContent (jid : String) (f : FileState) : String :=
  match f with
  | .readable c => c
  | .absent => "(Error file " ++ apos ++ errFileName jid ++ apos ++ " not found.)"
  | .unreadable e =>
    "(Could not read error file " ++ apos ++ errFileName jid ++ apos ++ ": " ++ e ++ ")"

/-- The bundle returned by `read_slurm_logs` (app.py lines 39-45); both
sections are stripped in the f-string. -/
def readSlurmLogs (jid : String) (fo fe : FileState) : String :=
  "--- Slurm Job " ++ jid ++ " Standard Output ---\n"
    ++ pyStrip (outContent jid fo) ++ "\n\n"
    ++ "--- Slurm Job " ++ jid ++ " Standard Error ---\n"
    ++ pyStrip (errContent jid fe) ++ "\n"
    ++ "-----------------------------------------"

/-- The `job_info` reactive value: a Python dict with fixed keys
(app.py lines 63-69). Timestamps are `none` for Python `None`. -/
structure JobInfo where
  status : String
  start_time : Option Nat
  end_time : Option Nat
  job_id : Option String
  hostname : String
deriving DecidableEq

/-- The value `job_info` is initialised / reset to (app.py lines 63-69, 115,
244, 248). -/
def initialInfo : JobInfo :=
  ⟨"No job launched", none, none, none, "N/A"⟩

/-- The compact status display (app.py lines 88-103).  The completed branch
evaluates the f-string `"Job Completed in \x7bduration:.2f\x7d seconds."`
where `duration = end_time - start_time` is a `datetime.timedelta` (or a
`TypeError` if either operand is `None`).  `datetime.timedelta` does not
implement `__format__` for a non-empty format spec, so `object.__format__`
raises `TypeError: unsupported format string passed to
datetime.timedelta.__format__`.  The embedding therefore returns
`Except.error` on that branch. -/
def jobStatusDisplay (info : JobInfo) : Except String String :=
  if info.status = "Job running" then
    .ok ("Job running on host: " ++ info.hostname)
  else if info.status = "Job completed" then
    match info.end_time, info.start_time with
    | some _, some _ =>
      .error "TypeError: unsupported format string passed to datetime.timedelta.__format__"
    | _, _ =>
      .error "TypeError: unsupported operand type(s) for -: involving NoneType"
  else
    .ok "No job launched"

/-- Spec-level name for the poller branch that produced a `job_info` value
(§4.4 of the spec): the code's `status` string collapses Pending and Failed
into "No job launched", so the phase is tracked alongside each update. -/
inductive Phase
  | notLaunched
  | pending
  | running
  | completed
  | failed
deriving DecidableEq

/-- One observable update performed by the launch handler: a `job_info.set`
(tagged with the spec-level phase of the branch that ran it) or a
`job_output_content.set` (a published narrative message). -/
inductive Event
  | setInfo (info : JobInfo) (phase : Phase)
  | setMsg (msg : String)
deriving DecidableEq

/-- How the launch handler's `try` body ended. `stillPolling` means the
supplied list of `squeue` outputs ran out with the loop still going (the
real loop would keep polling forever; `finally` has not run). -/
inductive Outcome
  | stillPolling
  | finished (info : JobInfo) (phase : Phase) (msg : String)
  | submitFailed (msg : String)
  | errored (msg : String)
deriving DecidableEq

/-- Result of the polling loop (app.py lines 156-240). -/
structure LoopRes where
  events : List Event
  outcome : Outcome
  squeueCalls : Nat
  sacctCalls : Nat
deriving DecidableEq

/-- The recognised abnormal terminal states (app.py line 218). -/
def failStates : List String :=
  ["FAILED", "CANCELLED", "TIMEOUT", "NODE_FAIL", "PREEMPTED", "OUT_OF_MEMORY"]

/-- The `while True` polling loop (app.py lines 157-240), driven by the
list of successive decoded `squeue` outputs.  `cur` is the current
`job_info` value, `lk` is `last_known_hostname`, `tick` the clock.
A non-empty state other than RUNNING/PENDING matches no branch: the code
just sleeps and polls again. -/
def pollLoop (jid sacctOut : String) (fo fe : FileState) :
    JobInfo → String → Nat → List String → LoopRes
  | _, _, _, [] => ⟨[], .stillPolling, 0, 0⟩
  | cur, lk, tick, o :: rest =>
    let st := stateOf o
    let lk2 := (nodeOf o).getD lk
    if st = "RUNNING" then
      let stt : Option Nat × Nat :=
        match cur.start_time with
        | some t => (some t, tick)
        | none => (some tick, tick + 1)
      let host := if lk2 ≠ "N/A" then lk2 else "Unknown Node"
      let info : JobInfo := ⟨"Job running", stt.1, none, some jid, host⟩
      let msg := "Slurm job ID: " ++ jid ++ "\nCurrently running on: " ++ host
        ++ "\nMonitoring job status and output..."
      let r := pollLoop jid sacctOut fo fe info lk2 stt.2 rest
      ⟨.setInfo info .running :: .setMsg msg :: r.events, r.outcome,
        r.squeueCalls + 1, r.sacctCalls⟩
    else if st = "PENDING" then
      let msg := "Slurm job ID: " ++ jid
        ++ "\nJob status: Pending. Waiting for allocation..."
      let r := pollLoop jid sacctOut fo fe cur lk2 tick rest
      ⟨.setMsg msg :: r.events, r.outcome, r.squeueCalls + 1, r.sacctCalls⟩
    else if st = "" then
      let finalState := sacctExtract sacctOut
      let bundle := readSlurmLogs jid fo fe
      if finalState = "COMPLETED" then
        let info : JobInfo := ⟨"Job completed", cur.start_time, some tick, some jid, lk2⟩
        let msg := "Slurm job " ++ jid ++ " completed successfully.\n\n" ++ bundle
        ⟨[.setInfo info .completed, .setMsg msg], .finished info .completed msg, 1, 1⟩
      else if failStates.contains finalState then
        let info : JobInfo := ⟨"No job launched", cur.start_time, some tick, some jid, lk2⟩
        let msg := "Slurm job " ++ jid ++ " ended with state: " ++ finalState
          ++ ".\n\n" ++ bundle
        ⟨[.setInfo info .failed, .setMsg msg], .finished info .failed msg, 1, 1⟩
      else
        let info : JobInfo := ⟨"No job launched", cur.start_time, some tick, some jid, lk2⟩
        let msg := "Slurm job " ++ jid ++ " ended in unexpected state: " ++ finalState
          ++ ". Please check Slurm logs directly on the cluster for job ID " ++ jid
          ++ " and consult `sacct -j " ++ jid ++ "`.\n\n" ++ bundle
        ⟨[.setInfo info .failed, .setMsg msg], .finished info .failed msg, 1, 1⟩
    else
      let r := pollLoop jid sacctOut fo fe cur lk2 tick rest
      ⟨r.events, r.outcome, r.squeueCalls + 1, r.sacctCalls⟩

/-- Filesystem footprint of one run: the generated script and the two log
files of the current job id. -/
structure FS where
  script : Bool
  outF : FileState
  errF : FileState
deriving DecidableEq

/-- The `finally` block (app.py lines 250-270): remove the script if it
exists; the log files are removed only under `if current_job_id:` (line
260), i.e. Python truthiness of the assigned id string — false both when
no id was assigned and when the assigned id is the empty string.
`os.remove` is modelled as succeeding (the code logs and swallows removal
errors). -/
def cleanupFs (fs : FS) (jobIdTruthy : Bool) : FS :=
  let fs1 : FS := { fs with script := false }
  if jobIdTruthy then { fs1 with outF := .absent, errF := .absent } else fs1

/-- Where an "unexpected exception" is injected, if anywhere:
while writing/chmodding the script (script not yet on disk, no job id),
while running `sbatch` (script on disk, no job id), or inside the polling
loop (script on disk, job id obtained). -/
inductive ExcPoint
  | duringWrite
  | duringSubmit
  | duringLoop
deriving DecidableEq

/-- One launch scenario: the initial filesystem, `sbatch`'s behaviour, the
successive `squeue` outputs, `sacct`'s output, and an optional injected
exception. -/
structure Scenario where
  fs0 : FS
  submitOk : Bool
  submitStdout : String
  submitStderr : String
  squeueOuts : List String
  sacctOut : String
  exc : Option (ExcPoint × String)

/-- Observable result of one launch-handler run. `terminated` is false only
when the poll loop never exits (then `finally` never runs either). -/
structure RunResult where
  events : List Event
  outcome : Outcome
  jobId : Option String
  squeueCalls : Nat
  sacctCalls : Nat
  terminated : Bool
  finalFs : FS
deriving DecidableEq

/-- The two updates of the `except Exception` handler (app.py lines 247-249). -/
def excEvents (m : String) : List Event :=
  [.setInfo initialInfo .notLaunched, .setMsg ("An unexpected error occurred: " ++ m)]

/-- The run from the point where the script is on disk (app.py lines 131
onward): submit, then either the failure branch (lines 242-245) or the
pending update (lines 146-153) and the poll loop; `excLoop` injects an
exception at the top of the loop.  Cleanup of the log files is keyed to the
truthiness of `current_job_id` (app.py line 260): `!(jid == "")`, so an
empty-string id (exit 0 with blank stdout) skips log removal. -/
def afterWrite (sc : Scenario) (ev0 : List Event) (excLoop : Option String) : RunResult :=
  let fs1 : FS := { sc.fs0 with script := true }
  if sc.submitOk then
    let jid := pyStrip sc.submitStdout
    let pInfo : JobInfo := ⟨"No job launched", some 0, none, some jid, "N/A"⟩
    let pMsg := "Slurm job ID: " ++ jid
      ++ "\nJob status: Pending.\nPolling for job completion and node information..."
    let evP := ev0 ++ [.setInfo pInfo .pending, .setMsg pMsg]
    match excLoop with
    | some m =>
      ⟨evP ++ excEvents m, .errored ("An unexpected error occurred: " ++ m),
        some jid, 0, 0, true, cleanupFs fs1 (!(jid == ""))⟩
    | none =>
      let lr := pollLoop jid sc.sacctOut sc.fs0.outF sc.fs0.errF pInfo "N/A" 1 sc.squeueOuts
      let term : Bool := match lr.outcome with | .stillPolling => false | _ => true
      ⟨evP ++ lr.events, lr.outcome, some jid, lr.squeueCalls, lr.sacctCalls,
        term, if term then cleanupFs fs1 (!(jid == "")) else fs1⟩
  else
    let msg := "Failed to submit Slurm job:\n" ++ pyStrip sc.submitStderr
    ⟨ev0 ++ [.setInfo initialInfo .notLaunched, .setMsg msg], .submitFailed msg,
      none, 0, 0, true, cleanupFs fs1 false⟩

/-- The whole launch handler (app.py lines 111-270): reset and initial
message, script write, submit, poll loop, exception handler, `finally`. -/
def runLaunch (sc : Scenario) : RunResult :=
  let ev0 : List Event :=
    [.setInfo initialInfo .notLaunched, .setMsg "Attempting to launch Slurm job..."]
  match sc.exc with
  | some (.duringWrite, m) =>
    ⟨ev0 ++ excEvents m, .errored ("An unexpected error occurred: " ++ m),
      none, 0, 0, true, cleanupFs sc.fs0 false⟩
  | some (.duringSubmit, m) =>
    ⟨ev0 ++ excEvents m, .errored ("An unexpected error occurred: " ++ m),
      none, 0, 0, true, cleanupFs { sc.fs0 with script := true } false⟩
  | some (.duringLoop, m) => afterWrite sc ev0 (some m)
  | none => afterWrite sc ev0 none

/-- Proposition that `pat` occurs verbatim inside `s`. -/
def strContains (s pat : String) : Prop :=
  ∃ pre post, s = pre ++ pat ++ post

/-- The value of `last_known_hostname` after processing a list of `squeue`
outputs, starting from `init`: each output carrying a node field overwrites
it, all others leave it alone (app.py lines 156, 174-176). -/
def lastNodeAux (init : String) (outs : List String) : String :=
  outs.foldl (fun acc o => (nodeOf o).getD acc) init

lemma strAppendEmpty (s : String) : s ++ "" = s := by
  cases s
  simp [String.instAppend, String.append]

lemma dropWhile_eq_cons_not (p : Char → Bool) :
    ∀ (l : List Char) (c : Char) (t : List Char), l.dropWhile p = c :: t → p c = false := by
  intro l
  induction l with
  | nil => intro c t h; simp [List.dropWhile] at h
  | cons a l1 ih =>
    intro c t h
    by_cases ha : p a
    · simp [List.dropWhile, ha] at h
      exact ih c t h
    · simp [List.dropWhile, ha] at h
      rw [← h.1]
      simp [ha]

lemma dropTrailingSpaces_cons_shape (c : Char) (t : List Char) :
    dropTrailingSpaces (c :: t) = [] ∨
      ∃ r, dropTrailingSpaces (c :: t) = c :: r := by
  rw [dropTrailingSpaces]
  rcases hdt : dropTrailingSpaces t with _ | ⟨a, r⟩
  · by_cases hc : isSpaceChar c
    · left; simp [hc]
    · right; exact ⟨[], by simp [hc]⟩
  · right; exact ⟨a :: r, rfl⟩

lemma dropTrailingSpaces_ne_nil (c : Char) (t : List Char)
    (hc : isSpaceChar c = false) : dropTrailingSpaces (c :: t) ≠ [] := by
  rw [dropTrailingSpaces]
  rcases hdt : dropTrailingSpaces t with _ | ⟨a, r⟩
  · simp [hc]
  · simp

lemma pyStripL_head_not_space :
    ∀ l c t, pyStripL l = c :: t → isSpaceChar c = false := by
  intro l c t h
  unfold pyStripL at h
  rcases hdw : l.dropWhile isSpaceChar with _ | ⟨a, r⟩
  · rw [hdw] at h; simp [dropTrailingSpaces] at h
  · rw [hdw] at h
    have ha : isSpaceChar a = false := dropWhile_eq_cons_not isSpaceChar l a r hdw
    rcases dropTrailingSpaces_cons_shape a r with h0 | ⟨r2, h2⟩
    · rw [h0] at h; exact absurd h (by simp)
    · rw [h2] at h
      have : a = c := (List.cons.injEq a r2 c t).mp h |>.1
      rw [← this]; exact ha

lemma pyStripL_cons_not_space_ne_nil (c : Char) (t : List Char)
    (hc : isSpaceChar c = false) : pyStripL (c :: t) ≠ [] := by
  unfold pyStripL
  rw [List.dropWhile_cons, hc]
  simp only [Bool.false_eq_true, if_false]
  exact dropTrailingSpaces_ne_nil c t hc

lemma string_mk_ne_empty (c : Char) (t : List Char) : String.mk (c :: t) ≠ "" := by
  intro h
  have : (String.mk (c :: t)).data = ("" : String).data := by rw [h]
  simp at this

lemma string_eq_empty_iff (s : String) : s = "" ↔ s.data = [] := by
  cases s with
  | mk d =>
    constructor
    · intro h
      have h2 : String.mk d = String.mk [] := h
      exact congrArg String.data h2
    · intro h
      have h2 : d = [] := h
      rw [h2]

/-- A non-blank `squeue` output yields a non-empty parsed state. -/
lemma stateOf_ne_empty (o : String) (h : pyStrip o ≠ "") : stateOf o ≠ "" := by
  unfold stateOf splitMax1
  rcases hd : (pyStrip o).data with _ | ⟨c, t⟩
  · exact absurd ((string_eq_empty_iff (pyStrip o)).mpr hd) h
  · have hps : pyStripL o.data = c :: t := by
      have : (pyStrip o).data = pyStripL o.data := rfl
      rw [← this, hd]
    have hc : isSpaceChar c = false := pyStripL_head_not_space o.data c t hps
    simp only [List.dropWhile_cons, hc]
    simp only [Bool.false_eq_true, if_false, List.takeWhile_cons, hc]
    simp only [Bool.not_false, if_true]
    exact string_mk_ne_empty c _

/-- A blank `squeue` output yields the empty parsed state. -/
lemma stateOf_empty (o : String) (h : pyStrip o = "") : stateOf o = "" := by
  unfold stateOf splitMax1
  rw [h]
  rfl

/-- A node field extracted from a `squeue` line is never the empty string:
the remainder after `split(maxsplit=1)` starts with a non-whitespace
character, so its `strip()` is non-empty. -/
lemma nodeOf_ne_empty (o : String) (n : String) (h : nodeOf o = some n) : n ≠ "" := by
  unfold nodeOf splitMax1 at h
  simp only at h
  rcases hrest :
      (((pyStrip o).data.dropWhile
          isSpaceChar).drop
            (((pyStrip o).data.dropWhile isSpaceChar).takeWhile
              (fun c => !(isSpaceChar c))).length).dropWhile isSpaceChar with _ | ⟨c, t⟩
  · rw [hrest] at h; simp at h
  · rw [hrest] at h
    simp only [List.isEmpty_cons, Bool.false_eq_true, if_false, Option.some.injEq] at h
    have hc : isSpaceChar c = false := dropWhile_eq_cons_not isSpaceChar _ c t hrest
    rw [← h]
    intro habs
    have : pyStripL (c :: t) = [] := by
      have := (string_eq_empty_iff (String.mk (pyStripL (c :: t)))).mp habs
      simpa using this
    exact pyStripL_cons_not_space_ne_nil c t hc this

lemma strData_append (a b : String) : (a ++ b).data = a.data ++ b.data := by
  cases a; cases b; rfl

lemma dropTrailingSpaces_eq_self :
    ∀ (l : List Char) (c : Char), l.getLast? = some c → isSpaceChar c = false →
      dropTrailingSpaces l = l := by
  intro l
  induction l with
  | nil => intro c h hc; simp at h
  | cons a t ih =>
    intro c h hc
    cases t with
    | nil =>
      have : a = c := by simpa using h
      rw [dropTrailingSpaces]
      simp [dropTrailingSpaces, this, hc]
    | cons b t2 =>
      have h2 : (b :: t2).getLast? = some c := by
        rw [← h]; exact (List.getLast?_cons_cons).symm
      have ih2 := ih c h2 hc
      show (match dropTrailingSpaces (b :: t2) with
        | [] => if isSpaceChar a then [] else [a]
        | r => a :: r) = a :: b :: t2
      rw [ih2]

lemma pyStripL_eq_self (c : Char) (t : List Char) (hc : isSpaceChar c = false)
    (e : Char) (he : (c :: t).getLast? = some e) (he2 : isSpaceChar e = false) :
    pyStripL (c :: t) = c :: t := by
  unfold pyStripL
  rw [List.dropWhile_cons, hc]
  simp only [Bool.false_eq_true, if_false]
  exact dropTrailingSpaces_eq_self (c :: t) e he he2

/-- Stripping a parenthesised text is the identity: it neither starts nor
ends with whitespace. All the Log Reader placeholder texts have this shape. -/
lemma pyStrip_paren (mid : String) : pyStrip ("(" ++ mid ++ ")") = "(" ++ mid ++ ")" := by
  have hdata : ("(" ++ mid ++ ")").data = '(' :: (mid.data ++ [')']) := by
    rw [strData_append, strData_append]
    rfl
  have hlast : ('(' :: (mid.data ++ [')'])).getLast? = some ')' := by
    rw [show ('(' :: (mid.data ++ [')'])) = ('(' :: mid.data) ++ [')'] from by simp]
    exact List.getLast?_concat _
  unfold pyStrip
  rw [hdata, pyStripL_eq_self '(' (mid.data ++ [')']) (by decide) ')' hlast (by decide),
    ← hdata]

lemma takeBeforePipe_firstLine :
    ∀ (l : List Char), '|' ∈ firstLineOf l → takeBeforePipe l = takeBeforePipe (firstLineOf l) := by
  intro l
  induction l with
  | nil => intro h; simp [firstLineOf] at h
  | cons c t ih =>
    intro h
    by_cases hn : c = '\n'
    · subst hn
      have h0 : firstLineOf ('\n' :: t) = [] := by
        unfold firstLineOf
        rw [List.takeWhile_cons]
        simp
      rw [h0] at h
      exact absurd h (List.not_mem_nil _)
    · by_cases hp : c = '|'
      · subst hp
        have hb : (!('|' == '|')) = false := by simp
        have h2 : firstLineOf ('|' :: t) = '|' :: firstLineOf t := by
          unfold firstLineOf
          rw [List.takeWhile_cons]
          simp [hn]
        rw [h2]
        unfold takeBeforePipe
        rw [List.takeWhile_cons, hb, List.takeWhile_cons, hb]
        simp
      · have hb1 : (!(c == '\n')) = true := by simp [hn]
        have hb2 : (!(c == '|')) = true := by simp [hp]
        have h2 : firstLineOf (c :: t) = c :: firstLineOf t := by
          unfold firstLineOf
          rw [List.takeWhile_cons, hb1]
          simp
        rw [h2] at h ⊢
        rcases List.mem_cons.mp h with h3 | h3
        · exact absurd h3.symm hp
        · unfold takeBeforePipe
          rw [List.takeWhile_cons, hb2, List.takeWhile_cons, hb2]
          simp only [if_true]
          have h4 := ih h3
          unfold takeBeforePipe at h4
          rw [h4]

lemma firstLineOf_eq_self :
    ∀ (l : List Char), ¬ '\n' ∈ l → firstLineOf l = l := by
  intro l
  induction l with
  | nil => intro _; rfl
  | cons c t ih =>
    intro h
    have hc : ¬ c = '\n' := fun hc => h (hc ▸ List.mem_cons_self c t)
    have ht : ¬ '\n' ∈ t := fun ht => h (List.mem_cons_of_mem c ht)
    have hb : (!(c == '\n')) = true := by simp [hc]
    unfold firstLineOf at *
    rw [List.takeWhile_cons, hb]
    simp only [if_true]
    rw [ih ht]

example : pyStrip "  RUNNING node1 \n" = "RUNNING node1" := by decide

example : stateOf "RUNNING node1" = "RUNNING" := by decide

example : stateOf "RUNNING" = "RUNNING" := by decide

example : nodeOf "RUNNING" = none := by decide

example : nodeOf "RUNNING  node1" = some "node1" := by decide

example : sacctExtract "" = "UNKNOWN" := by decide

example : sacctExtract "completed| " = "COMPLETED" := by decide

example : sacctExtract "COMPLETED\nFAILED|" = "COMPLETED\nFAILED" := by decide

example : specQueryFinal "COMPLETED\nFAILED|" = "COMPLETED" := by decide

example :
    (runLaunch ⟨⟨false, .absent, .absent⟩, true, "7\n", "", ["RUNNING n1", ""],
      "COMPLETED|", none⟩).outcome
    = .finished ⟨"Job completed", some 0, some 1, some "7", "n1"⟩ .completed
        ("Slurm job 7 completed successfully.\n\n" ++ readSlurmLogs "7" .absent .absent) := by
  rfl

example :
    (runLaunch ⟨⟨false, .absent, .absent⟩, true, "7", "", ["COMPLETING n1"],
      "COMPLETED|", none⟩).sacctCalls = 0 := by rfl

example :
    (runLaunch ⟨⟨false, .readable "hi", .absent⟩, true, "7", "", [""],
      "FAILED|", none⟩).finalFs = ⟨false, .absent, .absent⟩ := by rfl

/-- C2, counterexample: on the two-line accounting output
`"COMPLETED\nFAILED|"` the code's QueryFinal result keeps the embedded
newline and second record, so it is NOT the first record's first delimited
field (which is `"COMPLETED"`). -/
theorem c2_counterexample :
    sacctExtract "COMPLETED\nFAILED|" = "COMPLETED\nFAILED"
    ∧ specQueryFinal "COMPLETED\nFAILED|" = "COMPLETED"
    ∧ ¬ sacctExtract "COMPLETED\nFAILED|" = specQueryFinal "COMPLETED\nFAILED|" := by
  refine ⟨by decide, by decide, by decide⟩

/-- C2, amended: QueryFinal's result is everything before the first `|` of
the whole trimmed output, trimmed and upper-cased; it equals the first
record's first delimited field whenever the first record (line) contains a
pipe delimiter, or the output is a single line; empty output gives
`"UNKNOWN"`. -/
theorem c2_amended (raw : String) :
    (pyStrip raw = "" → sacctExtract raw = "UNKNOWN")
    ∧ ('|' ∈ firstLineOf (pyStrip raw).data → sacctExtract raw = specQueryFinal raw)
    ∧ (¬ '\n' ∈ (pyStrip raw).data → sacctExtract raw = specQueryFinal raw) := by
  refine ⟨?_, ?_, ?_⟩
  · intro h
    simp [sacctExtract, h]
  · intro h
    have hne : ¬ pyStrip raw = "" := by
      intro h0
      rw [(string_eq_empty_iff _).mp h0] at h
      exact absurd h (by simp [firstLineOf])
    simp only [sacctExtract, specQueryFinal, if_neg hne]
    rw [takeBeforePipe_firstLine _ h]
  · intro h
    by_cases h0 : pyStrip raw = ""
    · simp [sacctExtract, specQueryFinal, h0]
    · simp only [sacctExtract, specQueryFinal, if_neg h0]
      rw [firstLineOf_eq_self _ h]

/-- C2, witness for the amended theorem at the concrete output
`"COMPLETED|"`. -/
theorem c2_amended_witness :
    (pyStrip "COMPLETED|" = "" → sacctExtract "COMPLETED|" = "UNKNOWN")
    ∧ ('|' ∈ firstLineOf (pyStrip "COMPLETED|").data →
        sacctExtract "COMPLETED|" = specQueryFinal "COMPLETED|")
    ∧ (¬ '\n' ∈ (pyStrip "COMPLETED|").data →
        sacctExtract "COMPLETED|" = specQueryFinal "COMPLETED|") :=
  c2_amended "COMPLETED|"

/-- C9, code-bug evidence: on a completed record with both timestamps set,
the compact status display's completed branch raises (formatting a
`timedelta` with `:.2f`) instead of rendering the completed line; the other
two branches return their canned phrases. -/
theorem c9_completed_display_raises :
    jobStatusDisplay ⟨"Job completed", some 0, some 30, some "7", "n1"⟩ =
      Except.error "TypeError: unsupported format string passed to datetime.timedelta.__format__"
    ∧ jobStatusDisplay initialInfo = Except.ok "No job launched"
    ∧ jobStatusDisplay ⟨"Job running", some 0, none, some "7", "n1"⟩ =
      Except.ok "Job running on host: n1" := by
  refine ⟨rfl, rfl, rfl⟩

lemma list_head?_append (l1 l2 : List Char) (c : Char) (h : l1.head? = some c) :
    (l1 ++ l2).head? = some c := by
  cases l1 with
  | nil => simp at h
  | cons a t =>
    simp only [List.head?_cons, Option.some.injEq] at h
    simp [h]

lemma list_getLast?_append (l1 l2 : List Char) (c : Char) (h : l2.getLast? = some c) :
    (l1 ++ l2).getLast? = some c := by
  induction l1 with
  | nil => simpa using h
  | cons a t ih =>
    cases ht : t ++ l2 with
    | nil =>
      rcases List.append_eq_nil.mp ht with ⟨h1, h2⟩
      subst h2; simp at h
    | cons b u =>
      rw [List.cons_append, ht, List.getLast?_cons_cons, ← ht]
      exact ih

/-- A string that neither starts nor ends with whitespace is unchanged by
`strip()`. -/
lemma pyStrip_id_of_ends (s : String) (c e : Char)
    (h1 : s.data.head? = some c) (hc : isSpaceChar c = false)
    (h2 : s.data.getLast? = some e) (he : isSpaceChar e = false) :
    pyStrip s = s := by
  cases s with
  | mk d =>
    cases d with
    | nil => simp at h1
    | cons a t =>
      have ha : a = c := by simpa using h1
      subst ha
      show String.mk (pyStripL (a :: t)) = String.mk (a :: t)
      rw [pyStripL_eq_self a t hc e (by simpa using h2) he]

lemma string_ext (a b : String) (h : a.data = b.data) : a = b := by
  cases a with
  | mk d1 =>
    cases b with
    | mk d2 =>
      have h2 : d1 = d2 := h
      rw [h2]

/-- C8: the Log Reader is a total function of the two file states: the
bundle always carries both banners (naming the job id and the stream) in
order, a missing file contributes its explicit placeholder text, and an
unreadable file contributes its captured-error text. -/
theorem c8_log_reader (jid : String) (fo fe : FileState) :
    (∃ s1 s2,
      readSlurmLogs jid fo fe =
        "--- Slurm Job " ++ jid ++ " Standard Output ---\n" ++ s1
          ++ "--- Slurm Job " ++ jid ++ " Standard Error ---\n" ++ s2)
    ∧ (fo = FileState.absent →
        strContains (readSlurmLogs jid fo fe)
          ("(Output file " ++ apos ++ outFileName jid ++ apos ++ " not found.)"))
    ∧ (fe = FileState.absent →
        strContains (readSlurmLogs jid fo fe)
          ("(Error file " ++ apos ++ errFileName jid ++ apos ++ " not found.)"))
    ∧ (∀ e, fo = FileState.unreadable e →
        strContains (readSlurmLogs jid fo fe)
          ("(Could not read output file " ++ apos ++ outFileName jid ++ apos ++ ": " ++ e ++ ")"))
    ∧ (∀ e, fe = FileState.unreadable e →
        strContains (readSlurmLogs jid fo fe)
          ("(Could not read error file " ++ apos ++ errFileName jid ++ apos ++ ": " ++ e ++ ")")) := by
  refine ⟨?_, ?_, ?_, ?_, ?_⟩
  · refine ⟨pyStrip (outContent jid fo) ++ "\n\n",
      pyStrip (errContent jid fe) ++ "\n" ++ "-----------------------------------------", ?_⟩
    apply string_ext
    simp only [readSlurmLogs, strData_append, List.append_assoc]
  · intro h
    subst h
    have hP : pyStrip ("(Output file " ++ apos ++ outFileName jid ++ apos ++ " not found.)")
        = "(Output file " ++ apos ++ outFileName jid ++ apos ++ " not found.)" := by
      apply pyStrip_id_of_ends _ '(' ')'
      · simp only [strData_append, List.append_assoc]
        apply list_head?_append
        decide
      · decide
      · simp only [strData_append, List.append_assoc]
        apply list_getLast?_append
        apply list_getLast?_append
        apply list_getLast?_append
        apply list_getLast?_append
        decide
      · decide
    refine ⟨"--- Slurm Job " ++ jid ++ " Standard Output ---\n",
      "\n\n" ++ "--- Slurm Job " ++ jid ++ " Standard Error ---\n"
        ++ pyStrip (errContent jid fe) ++ "\n" ++ "-----------------------------------------", ?_⟩
    simp only [readSlurmLogs, outContent]
    rw [hP]
    apply string_ext
    simp only [strData_append, List.append_assoc]
  · intro h
    subst h
    have hP : pyStrip ("(Error file " ++ apos ++ errFileName jid ++ apos ++ " not found.)")
        = "(Error file " ++ apos ++ errFileName jid ++ apos ++ " not found.)" := by
      apply pyStrip_id_of_ends _ '(' ')'
      · simp only [strData_append, List.append_assoc]
        apply list_head?_append
        decide
      · decide
      · simp only [strData_append, List.append_assoc]
        apply list_getLast?_append
        apply list_getLast?_append
        apply list_getLast?_append
        apply list_getLast?_append
        decide
      · decide
    refine ⟨"--- Slurm Job " ++ jid ++ " Standard Output ---\n"
        ++ pyStrip (outContent jid fo) ++ "\n\n"
        ++ "--- Slurm Job " ++ jid ++ " Standard Error ---\n",
      "\n" ++ "-----------------------------------------", ?_⟩
    simp only [readSlurmLogs, errContent]
    rw [hP]
    apply string_ext
    simp only [strData_append, List.append_assoc]
  · intro e h
    subst h
    have hP : pyStrip ("(Could not read output file " ++ apos ++ outFileName jid ++ apos ++ ": " ++ e ++ ")")
        = "(Could not read output file " ++ apos ++ outFileName jid ++ apos ++ ": " ++ e ++ ")" := by
      apply pyStrip_id_of_ends _ '(' ')'
      · simp only [strData_append, List.append_assoc]
        apply list_head?_append
        decide
      · decide
      · simp only [strData_append, List.append_assoc]
        apply list_getLast?_append
        apply list_getLast?_append
        apply list_getLast?_append
        apply list_getLast?_append
        apply list_getLast?_append
        apply list_getLast?_append
        decide
      · decide
    refine ⟨"--- Slurm Job " ++ jid ++ " Standard Output ---\n",
      "\n\n" ++ "--- Slurm Job " ++ jid ++ " Standard Error ---\n"
        ++ pyStrip (errContent jid fe) ++ "\n" ++ "-----------------------------------------", ?_⟩
    simp only [readSlurmLogs, outContent]
    rw [hP]
    apply string_ext
    simp only [strData_append, List.append_assoc]
  · intro e h
    subst h
    have hP : pyStrip ("(Could not read error file " ++ apos ++ errFileName jid ++ apos ++ ": " ++ e ++ ")")
        = "(Could not read error file " ++ apos ++ errFileName jid ++ apos ++ ": " ++ e ++ ")" := by
      apply pyStrip_id_of_ends _ '(' ')'
      · simp only [strData_append, List.append_assoc]
        apply list_head?_append
        decide
      · decide
      · simp only [strData_append, List.append_assoc]
        apply list_getLast?_append
        apply list_getLast?_append
        apply list_getLast?_append
        apply list_getLast?_append
        apply list_getLast?_append
        apply list_getLast?_append
        decide
      · decide
    refine ⟨"--- Slurm Job " ++ jid ++ " Standard Output ---\n"
        ++ pyStrip (outContent jid fo) ++ "\n\n"
        ++ "--- Slurm Job " ++ jid ++ " Standard Error ---\n",
      "\n" ++ "-----------------------------------------", ?_⟩
    simp only [readSlurmLogs, errContent]
    rw [hP]
    apply string_ext
    simp only [strData_append, List.append_assoc]

/-- C8, witness: a concrete job id with a missing output file and an
unreadable error file. -/
theorem c8_log_reader_witness :
    strContains (readSlurmLogs "42" FileState.absent (FileState.unreadable "boom"))
      ("(Output file " ++ apos ++ outFileName "42" ++ apos ++ " not found.)")
    ∧ strContains (readSlurmLogs "42" FileState.absent (FileState.unreadable "boom"))
      ("(Could not read error file " ++ apos ++ errFileName "42" ++ apos ++ ": " ++ "boom" ++ ")") :=
  ⟨(c8_log_reader "42" FileState.absent (FileState.unreadable "boom")).2.1 rfl,
   (c8_log_reader "42" FileState.absent (FileState.unreadable "boom")).2.2.2.2 "boom" rfl⟩

/-- C6: when `sbatch` exits non-zero, the published message is the failure
header followed by the captured (stripped) stderr text, the record is reset
to the initial NotLaunched value (job id and both timestamps unset), the
poll loop is never entered, the run terminates, and cleanup still runs
(script removed). -/
theorem c6_submission_failure (sc : Scenario) (hexc : sc.exc = none)
    (hsub : sc.submitOk = false) :
    (runLaunch sc).outcome =
      Outcome.submitFailed ("Failed to submit Slurm job:\n" ++ pyStrip sc.submitStderr)
    ∧ strContains ("Failed to submit Slurm job:\n" ++ pyStrip sc.submitStderr)
        (pyStrip sc.submitStderr)
    ∧ (runLaunch sc).events =
        [Event.setInfo initialInfo Phase.notLaunched,
         Event.setMsg "Attempting to launch Slurm job...",
         Event.setInfo initialInfo Phase.notLaunched,
         Event.setMsg ("Failed to submit Slurm job:\n" ++ pyStrip sc.submitStderr)]
    ∧ (runLaunch sc).jobId = none
    ∧ (runLaunch sc).squeueCalls = 0
    ∧ (runLaunch sc).sacctCalls = 0
    ∧ (runLaunch sc).terminated = true
    ∧ (runLaunch sc).finalFs.script = false := by
  refine ⟨?_, ⟨"Failed to submit Slurm job:\n", "", by rw [strAppendEmpty]⟩, ?_, ?_, ?_, ?_, ?_, ?_⟩ <;>
    simp [runLaunch, hexc, afterWrite, hsub, cleanupFs]

/-- C6, witness: the spec's own scenario - submit exits 1 with stderr
`sbatch: error: invalid partition`. -/
theorem c6_submission_failure_witness :
    (runLaunch ⟨⟨false, FileState.absent, FileState.absent⟩, false, "",
        "sbatch: error: invalid partition", [], "", none⟩).outcome =
      Outcome.submitFailed
        ("Failed to submit Slurm job:\n"
          ++ pyStrip "sbatch: error: invalid partition")
    ∧ strContains
        ("Failed to submit Slurm job:\n" ++ pyStrip "sbatch: error: invalid partition")
        (pyStrip "sbatch: error: invalid partition")
    ∧ (runLaunch ⟨⟨false, FileState.absent, FileState.absent⟩, false, "",
        "sbatch: error: invalid partition", [], "", none⟩).events =
        [Event.setInfo initialInfo Phase.notLaunched,
         Event.setMsg "Attempting to launch Slurm job...",
         Event.setInfo initialInfo Phase.notLaunched,
         Event.setMsg ("Failed to submit Slurm job:\n"
           ++ pyStrip "sbatch: error: invalid partition")]
    ∧ (runLaunch ⟨⟨false, FileState.absent, FileState.absent⟩, false, "",
        "sbatch: error: invalid partition", [], "", none⟩).jobId = none
    ∧ (runLaunch ⟨⟨false, FileState.absent, FileState.absent⟩, false, "",
        "sbatch: error: invalid partition", [], "", none⟩).squeueCalls = 0
    ∧ (runLaunch ⟨⟨false, FileState.absent, FileState.absent⟩, false, "",
        "sbatch: error: invalid partition", [], "", none⟩).sacctCalls = 0
    ∧ (runLaunch ⟨⟨false, FileState.absent, FileState.absent⟩, false, "",
        "sbatch: error: invalid partition", [], "", none⟩).terminated = true
    ∧ (runLaunch ⟨⟨false, FileState.absent, FileState.absent⟩, false, "",
        "sbatch: error: invalid partition", [], "", none⟩).finalFs.script = false :=
  c6_submission_failure _ rfl rfl

/-- C7: whenever a run exits (normal terminal classification, submission
failure, or an injected exception at any of the three points), the cleanup
block runs: the generated script is gone afterwards, and if a job id was
obtained (a non-empty id string, the code's `if current_job_id:` truthiness
test) the two log files are gone as well; an empty-string id skips log
removal, mirroring app.py line 260. -/
theorem c7_cleanup (sc : Scenario) (h : (runLaunch sc).terminated = true) :
    (runLaunch sc).finalFs.script = false
    ∧ (∀ j, (runLaunch sc).jobId = some j → ¬ j = "" →
        (runLaunch sc).finalFs.outF = FileState.absent
        ∧ (runLaunch sc).finalFs.errF = FileState.absent)
    ∧ ((runLaunch sc).jobId = some "" →
        (runLaunch sc).finalFs.outF = sc.fs0.outF
        ∧ (runLaunch sc).finalFs.errF = sc.fs0.errF) := by
  rcases hexc : sc.exc with _ | ⟨pt, m⟩
  · by_cases hsub : sc.submitOk
    · by_cases hjid : pyStrip sc.submitStdout = ""
      · simp only [runLaunch, hexc, afterWrite, hsub, if_true, hjid] at h ⊢
        rcases hout : (pollLoop "" sc.sacctOut sc.fs0.outF sc.fs0.errF
            ⟨"No job launched", some 0, none, some "", "N/A"⟩
            "N/A" 1 sc.squeueOuts).outcome with _ | ⟨i, p, m2⟩ | m2 | m2 <;>
          simp [hout, cleanupFs] at h ⊢
      · simp only [runLaunch, hexc, afterWrite, hsub, if_true] at h ⊢
        rcases hout : (pollLoop (pyStrip sc.submitStdout) sc.sacctOut sc.fs0.outF sc.fs0.errF
            ⟨"No job launched", some 0, none, some (pyStrip sc.submitStdout), "N/A"⟩
            "N/A" 1 sc.squeueOuts).outcome with _ | ⟨i, p, m2⟩ | m2 | m2 <;>
          simp [hout, cleanupFs, hjid] at h ⊢
    · simp [runLaunch, hexc, afterWrite, hsub, cleanupFs]
  · cases pt with
    | duringWrite =>
      simp [runLaunch, hexc, cleanupFs]
    | duringSubmit =>
      simp [runLaunch, hexc, cleanupFs]
    | duringLoop =>
      by_cases hsub : sc.submitOk
      · by_cases hjid : pyStrip sc.submitStdout = "" <;>
          simp [runLaunch, hexc, afterWrite, hsub, cleanupFs, hjid]
      · simp [runLaunch, hexc, afterWrite, hsub, cleanupFs]

/-- C7, witness: a successful run with the non-empty job id `9` reaching
the terminal classification, with the script and both log files initially
present; the theorem is applied discharging the termination, job-id and
non-emptiness hypotheses. -/
theorem c7_cleanup_witness :
    (runLaunch ⟨⟨true, FileState.readable "out", FileState.readable "err"⟩, true,
        "9", "", [""], "COMPLETED|", none⟩).finalFs.script = false
    ∧ ((runLaunch ⟨⟨true, FileState.readable "out", FileState.readable "err"⟩, true,
          "9", "", [""], "COMPLETED|", none⟩).finalFs.outF = FileState.absent
        ∧ (runLaunch ⟨⟨true, FileState.readable "out", FileState.readable "err"⟩, true,
          "9", "", [""], "COMPLETED|", none⟩).finalFs.errF = FileState.absent) :=
  ⟨(c7_cleanup ⟨⟨true, FileState.readable "out", FileState.readable "err"⟩, true,
      "9", "", [""], "COMPLETED|", none⟩ rfl).1,
   (c7_cleanup ⟨⟨true, FileState.readable "out", FileState.readable "err"⟩, true,
      "9", "", [""], "COMPLETED|", none⟩ rfl).2.1 "9" rfl (by decide)⟩

lemma pollLoop_end_iff (jid sacctOut : String) (fo fe : FileState) :
    ∀ (outs : List String) (cur : JobInfo) (lk : String) (tick : Nat) (i : JobInfo) (p : Phase),
      Event.setInfo i p ∈ (pollLoop jid sacctOut fo fe cur lk tick outs).events →
      (i.end_time.isSome = true ↔ (p = Phase.completed ∨ p = Phase.failed)) := by
  intro outs
  induction outs with
  | nil =>
    intro cur lk tick i p h
    simp [pollLoop] at h
  | cons o rest ih =>
    intro cur lk tick i p h
    by_cases h1 : stateOf o = "RUNNING"
    · simp [pollLoop, h1] at h
      rcases h with ⟨hi, hp⟩ | h
      · subst hi; subst hp; simp
      · exact ih _ _ _ _ _ h
    · by_cases h2 : stateOf o = "PENDING"
      · simp [pollLoop, h1, h2] at h
        exact ih _ _ _ _ _ h
      · by_cases h3 : stateOf o = ""
        · by_cases h4 : sacctExtract sacctOut = "COMPLETED"
          · simp [pollLoop, h1, h2, h3, h4] at h
            obtain ⟨hi, hp⟩ := h
            subst hi; subst hp; simp
          · by_cases h5 : sacctExtract sacctOut ∈ failStates
            · simp [pollLoop, h1, h2, h3, h4, h5] at h
              obtain ⟨hi, hp⟩ := h
              subst hi; subst hp; simp
            · simp [pollLoop, h1, h2, h3, h4, h5] at h
              obtain ⟨hi, hp⟩ := h
              subst hi; subst hp; simp
        · simp [pollLoop, h1, h2, h3] at h
          exact ih _ _ _ _ _ h

/-- C3: in every `job_info` state produced by any step of a run (including
the submission-failure and unexpected-exception resets), `end_time` is set
exactly on the terminal branches, i.e. iff the producing branch's phase is
Completed or Failed. -/
theorem c3_ended_iff_terminal (sc : Scenario) (i : JobInfo) (p : Phase)
    (h : Event.setInfo i p ∈ (runLaunch sc).events) :
    i.end_time.isSome = true ↔ (p = Phase.completed ∨ p = Phase.failed) := by
  rcases hexc : sc.exc with _ | ⟨pt, m⟩
  · by_cases hsub : sc.submitOk
    · simp [runLaunch, hexc, afterWrite, hsub, excEvents, initialInfo] at h
      rcases h with ⟨hi, hp⟩ | ⟨hi, hp⟩ | h
      · subst hi; subst hp; simp
      · subst hi; subst hp; simp
      · exact pollLoop_end_iff _ _ _ _ _ _ _ _ _ _ h
    · simp [runLaunch, hexc, afterWrite, hsub, excEvents, initialInfo] at h
      obtain ⟨hi, hp⟩ := h
      subst hi; subst hp; simp
  · cases pt with
    | duringWrite =>
      simp [runLaunch, hexc, excEvents, initialInfo] at h
      obtain ⟨hi, hp⟩ := h
      subst hi; subst hp; simp
    | duringSubmit =>
      simp [runLaunch, hexc, excEvents, initialInfo] at h
      obtain ⟨hi, hp⟩ := h
      subst hi; subst hp; simp
    | duringLoop =>
      by_cases hsub : sc.submitOk
      · simp [runLaunch, hexc, afterWrite, hsub, excEvents, initialInfo] at h
        rcases h with ⟨hi, hp⟩ | h
        · subst hi; subst hp; simp
        · rcases h with ⟨hi, hp⟩ | ⟨hi, hp⟩ <;> (subst hi; subst hp; simp)
      · simp [runLaunch, hexc, afterWrite, hsub, excEvents, initialInfo] at h
        obtain ⟨hi, hp⟩ := h
        subst hi; subst hp; simp

/-- C3, witness: the terminal Completed record of a concrete successful
run. -/
theorem c3_ended_iff_terminal_witness :
    ((⟨"Job completed", some 0, some 1, some "7", "n1"⟩ : JobInfo).end_time.isSome = true
      ↔ (Phase.completed = Phase.completed ∨ Phase.completed = Phase.failed)) :=
  c3_ended_iff_terminal
    ⟨⟨false, FileState.absent, FileState.absent⟩, true, "7", "", ["RUNNING n1", ""],
      "COMPLETED|", none⟩
    ⟨"Job completed", some 0, some 1, some "7", "n1"⟩ Phase.completed (by decide)

lemma pollLoop_completed_times (jid sacctOut : String) (fo fe : FileState) :
    ∀ (outs : List String) (cur : JobInfo) (lk : String) (tick : Nat),
      cur.start_time.isSome = true →
      ∀ (i : JobInfo) (p : Phase),
        Event.setInfo i p ∈ (pollLoop jid sacctOut fo fe cur lk tick outs).events →
        i.status = "Job completed" →
        i.start_time.isSome = true ∧ i.end_time.isSome = true := by
  intro outs
  induction outs with
  | nil =>
    intro cur lk tick hc i p h hs
    simp [pollLoop] at h
  | cons o rest ih =>
    intro cur lk tick hc i p h hs
    by_cases h1 : stateOf o = "RUNNING"
    · simp [pollLoop, h1] at h
      rcases h with ⟨hi, hp⟩ | h
      · subst hi
        simp at hs
      · refine ih _ _ _ ?_ _ _ h hs
        rcases hcs : cur.start_time with _ | t <;> simp [hcs]
    · by_cases h2 : stateOf o = "PENDING"
      · simp [pollLoop, h1, h2] at h
        exact ih _ _ _ hc _ _ h hs
      · by_cases h3 : stateOf o = ""
        · by_cases h4 : sacctExtract sacctOut = "COMPLETED"
          · simp [pollLoop, h1, h2, h3, h4] at h
            obtain ⟨hi, hp⟩ := h
            subst hi
            simpa using hc
          · by_cases h5 : sacctExtract sacctOut ∈ failStates
            · simp [pollLoop, h1, h2, h3, h4, h5] at h
              obtain ⟨hi, hp⟩ := h
              subst hi
              simp at hs
            · simp [pollLoop, h1, h2, h3, h4, h5] at h
              obtain ⟨hi, hp⟩ := h
              subst hi
              simp at hs
        · simp [pollLoop, h1, h2, h3] at h
          exact ih _ _ _ hc _ _ h hs

/-- C10: in every reachable `job_info` state, status `"Job completed"`
implies both `start_time` and `end_time` are set, so the duration
subtraction `end_time - start_time` in the completed branch of the compact
status display is well-defined. -/
theorem c10_completed_has_times (sc : Scenario) (i : JobInfo) (p : Phase)
    (h : Event.setInfo i p ∈ (runLaunch sc).events)
    (hs : i.status = "Job completed") :
    i.start_time.isSome = true ∧ i.end_time.isSome = true := by
  rcases hexc : sc.exc with _ | ⟨pt, m⟩
  · by_cases hsub : sc.submitOk
    · simp [runLaunch, hexc, afterWrite, hsub, excEvents, initialInfo] at h
      rcases h with ⟨hi, hp⟩ | ⟨hi, hp⟩ | h
      · subst hi; simp at hs
      · subst hi; simp at hs
      · refine pollLoop_completed_times _ _ _ _ _ _ _ _ ?_ _ _ h hs
        rfl
    · simp [runLaunch, hexc, afterWrite, hsub, excEvents, initialInfo] at h
      obtain ⟨hi, hp⟩ := h
      subst hi; simp at hs
  · cases pt with
    | duringWrite =>
      simp [runLaunch, hexc, excEvents, initialInfo] at h
      obtain ⟨hi, hp⟩ := h
      subst hi; simp at hs
    | duringSubmit =>
      simp [runLaunch, hexc, excEvents, initialInfo] at h
      obtain ⟨hi, hp⟩ := h
      subst hi; simp at hs
    | duringLoop =>
      by_cases hsub : sc.submitOk
      · simp [runLaunch, hexc, afterWrite, hsub, excEvents, initialInfo] at h
        rcases h with ⟨hi, hp⟩ | h
        · subst hi; simp at hs
        · rcases h with ⟨hi, hp⟩ | ⟨hi, hp⟩ <;> (subst hi; simp at hs)
      · simp [runLaunch, hexc, afterWrite, hsub, excEvents, initialInfo] at h
        obtain ⟨hi, hp⟩ := h
        subst hi; simp at hs

/-- C10, witness: the Completed record of a concrete run where the job
finished between polls (never observed RUNNING). -/
theorem c10_completed_has_times_witness :
    (⟨"Job completed", some 0, some 1, some "8", "N/A"⟩ : JobInfo).start_time.isSome = true
    ∧ (⟨"Job completed", some 0, some 1, some "8", "N/A"⟩ : JobInfo).end_time.isSome = true :=
  c10_completed_has_times
    ⟨⟨false, FileState.absent, FileState.absent⟩, true, "8", "", [""], "COMPLETED|", none⟩
    ⟨"Job completed", some 0, some 1, some "8", "N/A"⟩ Phase.completed (by decide) rfl

lemma mem_failStates_ne_completed (s : String) (h : s ∈ failStates) :
    ¬ s = "COMPLETED" := by
  intro he
  subst he
  exact absurd h (by decide)

lemma pollLoop_outcome_cons_nonempty (jid sacctOut : String) (fo fe : FileState)
    (cur : JobInfo) (lk : String) (tick : Nat) (o : String) (rest : List String)
    (ho : ¬ pyStrip o = "") :
    ∃ cur2 tick2,
      (pollLoop jid sacctOut fo fe cur lk tick (o :: rest)).outcome =
        (pollLoop jid sacctOut fo fe cur2 ((nodeOf o).getD lk) tick2 rest).outcome := by
  have h3 := stateOf_ne_empty o ho
  by_cases h1 : stateOf o = "RUNNING"
  · refine ⟨?_, ?_, ?_⟩
    · exact ⟨"Job running",
        (match cur.start_time with
          | some t => (some t, tick)
          | none => (some tick, tick + 1)).1, none, some jid,
        if (nodeOf o).getD lk ≠ "N/A" then (nodeOf o).getD lk else "Unknown Node"⟩
    · exact (match cur.start_time with
        | some t => (some t, tick)
        | none => (some tick, tick + 1)).2
    · simp [pollLoop, h1]
  · by_cases h2 : stateOf o = "PENDING"
    · exact ⟨cur, tick, by simp [pollLoop, h1, h2]⟩
    · exact ⟨cur, tick, by simp [pollLoop, h1, h2, h3]⟩

lemma pollLoop_fail_outcome (jid sacctOut : String) (fo fe : FileState)
    (hfail : sacctExtract sacctOut ∈ failStates) :
    ∀ (outs : List String) (cur : JobInfo) (lk : String) (tick : Nat),
      (∃ o ∈ outs, pyStrip o = "") →
      ∃ i, (pollLoop jid sacctOut fo fe cur lk tick outs).outcome =
          Outcome.finished i Phase.failed
            ("Slurm job " ++ jid ++ " ended with state: " ++ sacctExtract sacctOut
              ++ ".\n\n" ++ readSlurmLogs jid fo fe)
        ∧ i.end_time.isSome = true := by
  intro outs
  induction outs with
  | nil =>
    intro cur lk tick h
    simp at h
  | cons o rest ih =>
    intro cur lk tick h
    by_cases ho : pyStrip o = ""
    · have h3 : stateOf o = "" := stateOf_empty o ho
      have h1 : ¬ stateOf o = "RUNNING" := by rw [h3]; decide
      have h2 : ¬ stateOf o = "PENDING" := by rw [h3]; decide
      have h4 : ¬ sacctExtract sacctOut = "COMPLETED" :=
        mem_failStates_ne_completed _ hfail
      refine ⟨⟨"No job launched", cur.start_time, some tick, some jid, (nodeOf o).getD lk⟩,
        ?_, rfl⟩
      simp [pollLoop, h1, h2, h3, h4, hfail]
    · rcases h with ⟨o2, ho2, he⟩
      have ho2r : o2 ∈ rest := by
        rcases List.mem_cons.mp ho2 with hh | hh
        · subst hh; exact absurd he ho
        · exact hh
      obtain ⟨cur2, tick2, heq⟩ :=
        pollLoop_outcome_cons_nonempty jid sacctOut fo fe cur lk tick o rest ho
      obtain ⟨i, hi, hend⟩ := ih cur2 ((nodeOf o).getD lk) tick2 ⟨o2, ho2r, he⟩
      refine ⟨i, ?_, hend⟩
      rw [heq]
      exact hi

/-- C5: whenever the job has left the live queue and the historical query
classifies it with one of the recognised abnormal terminal states, the run
finishes with phase Failed, `end_time` set, and a published message that
contains that state name literally. -/
theorem c5_terminal_failure (sc : Scenario) (hexc : sc.exc = none)
    (hsub : sc.submitOk = true)
    (hempty : ∃ o ∈ sc.squeueOuts, pyStrip o = "")
    (hfail : sacctExtract sc.sacctOut ∈ failStates) :
    ∃ i, (runLaunch sc).outcome =
        Outcome.finished i Phase.failed
          ("Slurm job " ++ pyStrip sc.submitStdout ++ " ended with state: "
            ++ sacctExtract sc.sacctOut ++ ".\n\n"
            ++ readSlurmLogs (pyStrip sc.submitStdout) sc.fs0.outF sc.fs0.errF)
      ∧ i.end_time.isSome = true
      ∧ strContains
          ("Slurm job " ++ pyStrip sc.submitStdout ++ " ended with state: "
            ++ sacctExtract sc.sacctOut ++ ".\n\n"
            ++ readSlurmLogs (pyStrip sc.submitStdout) sc.fs0.outF sc.fs0.errF)
          (sacctExtract sc.sacctOut) := by
  obtain ⟨i, hi, hend⟩ :=
    pollLoop_fail_outcome (pyStrip sc.submitStdout) sc.sacctOut sc.fs0.outF sc.fs0.errF
      hfail sc.squeueOuts
      ⟨"No job launched", some 0, none, some (pyStrip sc.submitStdout), "N/A"⟩ "N/A" 1 hempty
  refine ⟨i, ?_, hend, ?_⟩
  · simp only [runLaunch, hexc, afterWrite, hsub, if_true]
    exact hi
  · refine ⟨"Slurm job " ++ pyStrip sc.submitStdout ++ " ended with state: ",
      ".\n\n" ++ readSlurmLogs (pyStrip sc.submitStdout) sc.fs0.outF sc.fs0.errF, ?_⟩
    apply string_ext
    simp [strData_append, List.append_assoc]

/-- C5, witness: a run whose job leaves the queue and is classified
`FAILED`. -/
theorem c5_terminal_failure_witness :
    ∃ i, (runLaunch ⟨⟨true, FileState.absent, FileState.absent⟩, true, "5", "", [""],
        "FAILED|", none⟩).outcome =
        Outcome.finished i Phase.failed
          ("Slurm job " ++ pyStrip "5" ++ " ended with state: "
            ++ sacctExtract "FAILED|" ++ ".\n\n"
            ++ readSlurmLogs (pyStrip "5") FileState.absent FileState.absent)
      ∧ i.end_time.isSome = true
      ∧ strContains
          ("Slurm job " ++ pyStrip "5" ++ " ended with state: "
            ++ sacctExtract "FAILED|" ++ ".\n\n"
            ++ readSlurmLogs (pyStrip "5") FileState.absent FileState.absent)
          (sacctExtract "FAILED|") :=
  c5_terminal_failure
    ⟨⟨true, FileState.absent, FileState.absent⟩, true, "5", "", [""], "FAILED|", none⟩
    rfl rfl ⟨"", by decide, rfl⟩ (by decide)

/-- C1, counterexample: with a single live report `COMPLETING n1` (non-empty,
neither RUNNING nor PENDING) the poller never calls the historical query and
keeps polling, while the empty-output case calls it once and terminates -
the two cases do not behave identically. -/
theorem c1_counterexample :
    (runLaunch ⟨⟨false, FileState.absent, FileState.absent⟩, true, "7", "",
        ["COMPLETING n1"], "COMPLETED|", none⟩).sacctCalls = 0
    ∧ (runLaunch ⟨⟨false, FileState.absent, FileState.absent⟩, true, "7", "",
        ["COMPLETING n1"], "COMPLETED|", none⟩).outcome = Outcome.stillPolling
    ∧ (runLaunch ⟨⟨false, FileState.absent, FileState.absent⟩, true, "7", "",
        ["COMPLETING n1"], "COMPLETED|", none⟩).terminated = false
    ∧ (runLaunch ⟨⟨false, FileState.absent, FileState.absent⟩, true, "7", "",
        [""], "COMPLETED|", none⟩).sacctCalls = 1
    ∧ (runLaunch ⟨⟨false, FileState.absent, FileState.absent⟩, true, "7", "",
        [""], "COMPLETED|", none⟩).terminated = true := by
  refine ⟨rfl, rfl, rfl, rfl, rfl⟩

/-- C1, amended: a polling cycle whose live state is non-empty and neither
RUNNING nor PENDING matches no branch of the loop body: it publishes
nothing, updates no record, does not consult the historical query, and the
loop simply continues with the remaining outputs (only the remembered
hostname may be updated by the report's node field). -/
theorem c1_amended (jid sacctOut : String) (fo fe : FileState) (cur : JobInfo)
    (lk : String) (tick : Nat) (o : String) (rest : List String)
    (h0 : ¬ pyStrip o = "") (h1 : ¬ stateOf o = "RUNNING")
    (h2 : ¬ stateOf o = "PENDING") :
    pollLoop jid sacctOut fo fe cur lk tick (o :: rest) =
      { pollLoop jid sacctOut fo fe cur ((nodeOf o).getD lk) tick rest with
          squeueCalls :=
            (pollLoop jid sacctOut fo fe cur ((nodeOf o).getD lk) tick rest).squeueCalls + 1 } := by
  have h3 := stateOf_ne_empty o h0
  simp [pollLoop, h1, h2, h3]

/-- C1, witness for the amended theorem at the concrete report
`COMPLETING n1`. -/
theorem c1_amended_witness :
    pollLoop "7" "COMPLETED|" FileState.absent FileState.absent initialInfo "N/A" 1
        ["COMPLETING n1"] =
      { pollLoop "7" "COMPLETED|" FileState.absent FileState.absent initialInfo
          ((nodeOf "COMPLETING n1").getD "N/A") 1 [] with
          squeueCalls :=
            (pollLoop "7" "COMPLETED|" FileState.absent FileState.absent initialInfo
              ((nodeOf "COMPLETING n1").getD "N/A") 1 []).squeueCalls + 1 } :=
  c1_amended "7" "COMPLETED|" FileState.absent FileState.absent initialInfo "N/A" 1
    "COMPLETING n1" [] (by decide) (by decide) (by decide)

lemma lastNodeAux_cons (i x : String) (t : List String) :
    lastNodeAux i (x :: t) = lastNodeAux ((nodeOf x).getD i) t := by
  simp [lastNodeAux]

lemma lastNodeAux_eq_init :
    ∀ (outs : List String) (lk : String), (∀ x ∈ outs, nodeOf x = none) →
      lastNodeAux lk outs = lk := by
  intro outs
  induction outs with
  | nil => intro lk _; rfl
  | cons x t ih =>
    intro lk h
    rw [lastNodeAux_cons, h x (List.mem_cons_self x t)]
    exact ih lk (fun y hy => h y (List.mem_cons_of_mem x hy))

lemma getD_nodeOf_invariant (lk o : String) (h : lk = "N/A" ∨ ¬ lk = "") :
    (nodeOf o).getD lk = "N/A" ∨ ¬ (nodeOf o).getD lk = "" := by
  rcases hno : nodeOf o with _ | n
  · simpa using h
  · right
    simpa using nodeOf_ne_empty o n hno

lemma lastNodeAux_invariant :
    ∀ (pre : List String) (lk : String), (lk = "N/A" ∨ ¬ lk = "") →
      (lastNodeAux lk pre = "N/A" ∨ ¬ lastNodeAux lk pre = "") := by
  intro pre
  induction pre with
  | nil => intro lk h; simpa [lastNodeAux] using h
  | cons x t ih =>
    intro lk h
    rw [lastNodeAux_cons]
    exact ih _ (getD_nodeOf_invariant lk x h)

lemma pollLoop_host_ne_empty (jid sacctOut : String) (fo fe : FileState) :
    ∀ (outs : List String) (cur : JobInfo) (lk : String) (tick : Nat),
      (lk = "N/A" ∨ ¬ lk = "") →
      ∀ (i : JobInfo) (p : Phase),
        Event.setInfo i p ∈ (pollLoop jid sacctOut fo fe cur lk tick outs).events →
        ¬ i.hostname = "" := by
  intro outs
  induction outs with
  | nil =>
    intro cur lk tick hlk i p h
    simp [pollLoop] at h
  | cons o rest ih =>
    intro cur lk tick hlk i p h
    have hlk2 := getD_nodeOf_invariant lk o hlk
    by_cases h1 : stateOf o = "RUNNING"
    · simp [pollLoop, h1] at h
      rcases h with ⟨hi, hp⟩ | h
      · subst hi
        by_cases hna : (nodeOf o).getD lk = "N/A"
        · simp [hna]
        · rcases hlk2 with hh | hh
          · exact absurd hh hna
          · simpa [hna] using hh
      · exact ih _ _ _ hlk2 _ _ h
    · by_cases h2 : stateOf o = "PENDING"
      · simp [pollLoop, h1, h2] at h
        exact ih _ _ _ hlk2 _ _ h
      · by_cases h3 : stateOf o = ""
        · by_cases h4 : sacctExtract sacctOut = "COMPLETED"
          · simp [pollLoop, h1, h2, h3, h4] at h
            obtain ⟨hi, hp⟩ := h
            subst hi
            rcases hlk2 with hh | hh
            · simp [hh]
            · simpa using hh
          · by_cases h5 : sacctExtract sacctOut ∈ failStates
            · simp [pollLoop, h1, h2, h3, h4, h5] at h
              obtain ⟨hi, hp⟩ := h
              subst hi
              rcases hlk2 with hh | hh
              · simp [hh]
              · simpa using hh
            · simp [pollLoop, h1, h2, h3, h4, h5] at h
              obtain ⟨hi, hp⟩ := h
              subst hi
              rcases hlk2 with hh | hh
              · simp [hh]
              · simpa using hh
        · simp [pollLoop, h1, h2, h3] at h
          exact ih _ _ _ hlk2 _ _ h

lemma pollLoop_running_empty_node (jid sacctOut : String) (fo fe : FileState)
    (o : String) (post : List String) (hrun : stateOf o = "RUNNING")
    (hnode : nodeOf o = none) :
    ∀ (pre : List String) (cur : JobInfo) (lk : String) (tick : Nat),
      (∀ x ∈ pre, ¬ pyStrip x = "") →
      ∃ i ev tail,
        (pollLoop jid sacctOut fo fe cur lk tick (pre ++ o :: post)).events =
          ev ++ Event.setInfo i Phase.running :: tail
        ∧ i.hostname =
            (if lastNodeAux lk pre = "N/A" then "Unknown Node" else lastNodeAux lk pre) := by
  intro pre
  induction pre with
  | nil =>
    intro cur lk tick _
    simp only [List.nil_append, pollLoop, hrun, if_pos, hnode, Option.getD_none]
    exact ⟨_, [], _, rfl, by
      by_cases hla : lk = "N/A" <;> simp [hla, lastNodeAux]⟩
  | cons x pre1 ih =>
    intro cur lk tick hpre
    have hx : ¬ pyStrip x = "" := hpre x (List.mem_cons_self x pre1)
    have hpre1 : ∀ y ∈ pre1, ¬ pyStrip y = "" :=
      fun y hy => hpre y (List.mem_cons_of_mem x hy)
    have hx3 := stateOf_ne_empty x hx
    rw [List.cons_append]
    by_cases h1 : stateOf x = "RUNNING"
    · obtain ⟨i, ev, tail, hev, hhost⟩ := ih
        ⟨"Job running",
          (match cur.start_time with
            | some t => (some t, tick)
            | none => (some tick, tick + 1)).1, none, some jid,
          if (nodeOf x).getD lk ≠ "N/A" then (nodeOf x).getD lk else "Unknown Node"⟩
        ((nodeOf x).getD lk)
        ((match cur.start_time with
          | some t => (some t, tick)
          | none => (some tick, tick + 1)).2)
        hpre1
      simp only [pollLoop, h1, if_pos, hev, lastNodeAux_cons]
      exact ⟨i, _ :: _ :: ev, tail, rfl, hhost⟩
    · by_cases h2 : stateOf x = "PENDING"
      · obtain ⟨i, ev, tail, hev, hhost⟩ := ih cur ((nodeOf x).getD lk) tick hpre1
        simp only [pollLoop, h1, h2, hev, lastNodeAux_cons]
        exact ⟨i, _ :: ev, tail, rfl, hhost⟩
      · obtain ⟨i, ev, tail, hev, hhost⟩ := ih cur ((nodeOf x).getD lk) tick hpre1
        simp only [pollLoop, h1, h2, hx3, hev, lastNodeAux_cons]
        exact ⟨i, ev, tail, rfl, hhost⟩

/-- C4, counterexample: a live report `RUNNING` with no node field and no
node ever observed stores the hostname `"Unknown Node"`, not the literal
`"unknown"` claimed by the spec. -/
theorem c4_counterexample :
    (runLaunch ⟨⟨false, FileState.absent, FileState.absent⟩, true, "7", "",
        ["RUNNING"], "", none⟩).events =
      [Event.setInfo initialInfo Phase.notLaunched,
       Event.setMsg "Attempting to launch Slurm job...",
       Event.setInfo ⟨"No job launched", some 0, none, some "7", "N/A"⟩ Phase.pending,
       Event.setMsg "Slurm job ID: 7\nJob status: Pending.\nPolling for job completion and node information...",
       Event.setInfo ⟨"Job running", some 0, none, some "7", "Unknown Node"⟩ Phase.running,
       Event.setMsg "Slurm job ID: 7\nCurrently running on: Unknown Node\nMonitoring job status and output..."]
    ∧ ¬ ("Unknown Node" : String) = "unknown" :=
  ⟨rfl, by decide⟩

/-- C4, amended: hostnames stored in `job_info` are never the empty string;
and at the cycle where a RUNNING report carries no node field, the stored
hostname is the last node observed in the preceding reports, or the
placeholder `"Unknown Node"` if a node was never observed. -/
theorem c4_amended (sc : Scenario) (pre : List String) (o : String)
    (post : List String) (hexc : sc.exc = none) (hsub : sc.submitOk = true)
    (houts : sc.squeueOuts = pre ++ o :: post)
    (hpre : ∀ x ∈ pre, ¬ pyStrip x = "")
    (hrun : stateOf o = "RUNNING") (hnode : nodeOf o = none) :
    (∀ (i : JobInfo) (p : Phase),
        Event.setInfo i p ∈ (runLaunch sc).events → ¬ i.hostname = "")
    ∧ ∃ i ev tail,
        (runLaunch sc).events = ev ++ Event.setInfo i Phase.running :: tail
        ∧ i.hostname =
            (if lastNodeAux "N/A" pre = "N/A" then "Unknown Node"
              else lastNodeAux "N/A" pre)
        ∧ ((∀ x ∈ pre, nodeOf x = none) → i.hostname = "Unknown Node")
        ∧ (¬ lastNodeAux "N/A" pre = "N/A" →
            i.hostname = lastNodeAux "N/A" pre ∧ ¬ i.hostname = "") := by
  constructor
  · intro i p h
    simp [runLaunch, hexc, afterWrite, hsub, excEvents, initialInfo] at h
    rcases h with ⟨hi, hp⟩ | ⟨hi, hp⟩ | h
    · subst hi; simp
    · subst hi; simp
    · exact pollLoop_host_ne_empty _ _ _ _ _ _ _ _ (Or.inl rfl) _ _ h
  · obtain ⟨i, ev, tail, hev, hhost⟩ :=
      pollLoop_running_empty_node (pyStrip sc.submitStdout) sc.sacctOut
        sc.fs0.outF sc.fs0.errF o post hrun hnode pre
        ⟨"No job launched", some 0, none, some (pyStrip sc.submitStdout), "N/A"⟩ "N/A" 1 hpre
    refine ⟨i,
      [Event.setInfo initialInfo Phase.notLaunched,
       Event.setMsg "Attempting to launch Slurm job...",
       Event.setInfo ⟨"No job launched", some 0, none, some (pyStrip sc.submitStdout), "N/A"⟩
         Phase.pending,
       Event.setMsg ("Slurm job ID: " ++ pyStrip sc.submitStdout
         ++ "\nJob status: Pending.\nPolling for job completion and node information...")] ++ ev,
      tail, ?_, hhost, ?_, ?_⟩
    · simp only [runLaunch, hexc, afterWrite, hsub, if_pos, houts, hev]
      simp
    · intro hall
      rw [hhost, lastNodeAux_eq_init pre "N/A" hall]
      simp
    · intro hne
      rw [hhost, if_neg hne]
      refine ⟨rfl, ?_⟩
      rcases lastNodeAux_invariant pre "N/A" (Or.inl rfl) with hh | hh
      · exact absurd hh hne
      · exact hh

/-- C4, witness for the amended theorem: node `n7` observed once, then a
RUNNING report with an empty node field keeps `n7`. -/
theorem c4_amended_witness :
    (∀ (i : JobInfo) (p : Phase),
        Event.setInfo i p ∈ (runLaunch ⟨⟨false, FileState.absent, FileState.absent⟩, true,
          "7", "", ["RUNNING n7", "RUNNING"], "", none⟩).events → ¬ i.hostname = "")
    ∧ ∃ i ev tail,
        (runLaunch ⟨⟨false, FileState.absent, FileState.absent⟩, true,
          "7", "", ["RUNNING n7", "RUNNING"], "", none⟩).events =
          ev ++ Event.setInfo i Phase.running :: tail
        ∧ i.hostname =
            (if lastNodeAux "N/A" ["RUNNING n7"] = "N/A" then "Unknown Node"
              else lastNodeAux "N/A" ["RUNNING n7"])
        ∧ ((∀ x ∈ ["RUNNING n7"], nodeOf x = none) → i.hostname = "Unknown Node")
        ∧ (¬ lastNodeAux "N/A" ["RUNNING n7"] = "N/A" →
            i.hostname = lastNodeAux "N/A" ["RUNNING n7"] ∧ ¬ i.hostname = "") :=
  c4_amended ⟨⟨false, FileState.absent, FileState.absent⟩, true,
      "7", "", ["RUNNING n7", "RUNNING"], "", none⟩
    ["RUNNING n7"] "RUNNING" [] rfl rfl rfl (by decide) (by decide) (by decide)

example :
    (runLaunch ⟨⟨true, FileState.readable "o", FileState.readable "e"⟩, true, " \n", "",
      [""], "COMPLETED|", none⟩).jobId = some ""
    ∧ (runLaunch ⟨⟨true, FileState.readable "o", FileState.readable "e"⟩, true, " \n", "",
      [""], "COMPLETED|", none⟩).finalFs
      = ⟨false, FileState.readable "o", FileState.readable "e"⟩ :=
  ⟨rfl, rfl⟩
